import Mathlib

/-!
Shallow embedding of the pagination and scaling engine of
`src/app.py` (function `generate_pdf`, lines 163-294) of the
code-to-flowchart repository.  Physical quantities (points,
millimetres) are modelled as exact rationals, image pixel dimensions
as natural numbers, and the Python `int()` conversion as truncation
toward zero on rationals.  A Python `ZeroDivisionError` escaping the
planner region is modelled by `Except.error PlanErr.divisionByZero`;
no other exception can be raised inside the embedded region.
-/

namespace FlowchartPDF

/-- Python `int()` on a rational number: truncation toward zero. -/
def pyInt (q : ℚ) : ℤ := if 0 ≤ q then ⌊q⌋ else -⌊-q⌋

/-- One millimetre in points, reportlab `mm = 72 / 25.4`. -/
def mmUnit : ℚ := 360 / 127

/-- One inch in points, reportlab `inch = 72`. -/
def inchUnit : ℚ := 72

/-- Page-size names offered by `PAGE_SIZES` in app.py (lines 24-28). -/
inductive PageSizeName
  | a4 | a3 | a2 | a1 | a0 | letter | legal | tabloid
  deriving DecidableEq

/-- Physical (width, height) in points of each named page size. -/
def pageSizeOf : PageSizeName → ℚ × ℚ
  | .a4 => (210 * mmUnit, 297 * mmUnit)
  | .a3 => (297 * mmUnit, 420 * mmUnit)
  | .a2 => (420 * mmUnit, 594 * mmUnit)
  | .a1 => (594 * mmUnit, 841 * mmUnit)
  | .a0 => (841 * mmUnit, 1189 * mmUnit)
  | .letter => ((17/2) * inchUnit, 11 * inchUnit)
  | .legal => ((17/2) * inchUnit, 14 * inchUnit)
  | .tabloid => (11 * inchUnit, 17 * inchUnit)

inductive Orientation
  | portrait | landscape
  deriving DecidableEq

/-- reportlab `landscape`: put the long edge first. -/
def landscapeSize (p : ℚ × ℚ) : ℚ × ℚ := if p.1 < p.2 then (p.2, p.1) else p

/-- Page size tuple after applying the orientation (app.py lines 181-183). -/
def pageSizeTuple (n : PageSizeName) (o : Orientation) : ℚ × ℚ :=
  match o with
  | .portrait => pageSizeOf n
  | .landscape => landscapeSize (pageSizeOf n)

/-- SimpleDocTemplate frame width: page width minus left and right margins. -/
def docWidth (ps : ℚ × ℚ) (margin : ℚ) : ℚ := ps.1 - margin - margin

/-- SimpleDocTemplate frame height: page height minus top and bottom margins. -/
def docHeight (ps : ℚ × ℚ) (margin : ℚ) : ℚ := ps.2 - margin - margin

/-- The `available_width` of app.py line 203, with the margin given in mm. -/
def availableWidth (n : PageSizeName) (o : Orientation) (marginMm : ℚ) : ℚ :=
  docWidth (pageSizeTuple n o) (marginMm * mmUnit)

/-- The `available_height` of app.py line 204: the frame height minus a
further 10 mm reserved for page numbers. -/
def availableHeight (n : PageSizeName) (o : Orientation) (marginMm : ℚ) : ℚ :=
  docHeight (pageSizeTuple n o) (marginMm * mmUnit) - 10 * mmUnit

/-- The three scaling methods of app.py lines 219, 228, 285. -/
inductive ScalingMethod
  | fitToPage | scaleToMultiplePages | originalSize
  deriving DecidableEq

/-- A plan element: either a cropped-and-scaled image placement (the crop
rectangle is in source pixel coordinates, the rendered size in points) or a
page break.  Page-number paragraphs and the optional DOT-code preamble are
text elements owned by the document assembler and are not part of the
planner's output. -/
inductive PageElement
  | imagePlacement (x0 y0 x1 y1 : ℤ) (renderedWidth renderedHeight : ℚ)
  | pageBreak
  deriving DecidableEq

/-- The only exception the embedded planner region can raise: a Python
`ZeroDivisionError` (caught by the catch-all at app.py line 292 and turned
into a generic failure message). -/
inductive PlanErr
  | divisionByZero
  deriving DecidableEq

/-- The `scale` of app.py line 230: never enlarge horizontally. -/
def scaleFactor (aw : ℚ) (iw : ℕ) : ℚ := min 1 (aw / (iw : ℚ))

/-- The `scaled_width` of app.py line 231. -/
def scaledWidth (aw : ℚ) (iw : ℕ) : ℚ := (iw : ℚ) * scaleFactor aw iw

/-- The `scaled_height` of app.py line 232. -/
def scaledHeight (aw : ℚ) (iw ih : ℕ) : ℚ := (ih : ℚ) * scaleFactor aw iw

/-- The `overlap_percentage` of app.py line 241. -/
def overlapPercentage : ℚ := 1 / 10

/-- The `effective_page_height` of app.py line 242. -/
def effectivePageHeight (ah : ℚ) : ℚ := ah * (1 - overlapPercentage)

/-- The `pages_needed` of app.py line 243:
`max(1, int((scaled_height / effective_page_height) + 0.999))`. -/
def pagesNeeded (aw ah : ℚ) (iw ih : ℕ) : ℤ :=
  max 1 (pyInt (scaledHeight aw iw ih / effectivePageHeight ah + 999 / 1000))

/-- `pages_needed` as a natural number (it is always at least 1). -/
def planPages (aw ah : ℚ) (iw ih : ℕ) : ℕ := (pagesNeeded aw ah iw ih).toNat

/-- The `section_height_pixels` of app.py line 246. -/
def sectionHeightPixels (ih P : ℕ) : ℚ := (ih : ℚ) / (P : ℚ)

/-- The `overlap_pixels` of app.py line 248. -/
def overlapPixels (ih P : ℕ) : ℚ := sectionHeightPixels ih P * overlapPercentage

/-- The `start_y` of slice `i` (app.py lines 252-254 and the clamp on
line 261): the slice position and the overlap term are truncated
separately, then the result is clamped below at 0. -/
def startY (ih P i : ℕ) : ℤ :=
  max 0 (pyInt ((i : ℚ) * sectionHeightPixels ih P) -
    (if 0 < i then pyInt (overlapPixels ih P) else 0))

/-- The `end_y` of slice `i` (app.py lines 256-258 and the clamp on
line 262): the truncation of `min((i+1)*section_height_pixels, img_height)`
plus the separately truncated overlap for every slice but the last, clamped
above at the image height. -/
def endY (ih P i : ℕ) : ℤ :=
  min (ih : ℤ) (pyInt (min (((i : ℚ) + 1) * sectionHeightPixels ih P) (ih : ℚ)) +
    (if i < P - 1 then pyInt (overlapPixels ih P) else 0))

/-- The elements appended for slice `i` of the multi-page loop (app.py
lines 250-283): the cropped placement, then a page break for every slice
but the last. -/
def sliceElements (aw : ℚ) (iw ih P i : ℕ) : List PageElement :=
  PageElement.imagePlacement 0 (startY ih P i) (iw : ℤ) (endY ih P i)
      (scaledWidth aw iw)
      (((endY ih P i - startY ih P i : ℤ) : ℚ) * scaleFactor aw iw) ::
    (if i < P - 1 then [PageElement.pageBreak] else [])

/-- The Python `for i in range(P)` loop accumulating elements in order. -/
def pagesLoop (f : ℕ → List PageElement) : ℕ → List PageElement
  | 0 => []
  | n + 1 => pagesLoop f n ++ f n

/-- All elements emitted by the multi-page branch (app.py lines 250-283). -/
def multiPageElements (aw : ℚ) (iw ih P : ℕ) : List PageElement :=
  pagesLoop (sliceElements aw iw ih P) P

/-- The pagination planner: the image-processing region of `generate_pdf`
(app.py lines 219-287), parameterised by the available content area, the
image pixel size and the scaling method.  Divisions follow Python
evaluation order, so a zero divisor yields `PlanErr.divisionByZero` at
exactly the point the source would raise. -/
def planElements (aw ah : ℚ) (iw ih : ℕ) : ScalingMethod → Except PlanErr (List PageElement)
  | .fitToPage =>
    if iw = 0 then .error .divisionByZero
    else if ih = 0 then .error .divisionByZero
    else
      .ok [PageElement.imagePlacement 0 0 (iw : ℤ) (ih : ℤ)
        ((iw : ℚ) * min (aw / (iw : ℚ)) (ah / (ih : ℚ)))
        ((ih : ℚ) * min (aw / (iw : ℚ)) (ah / (ih : ℚ)))]
  | .scaleToMultiplePages =>
    if iw = 0 then .error .divisionByZero
    else if scaledHeight aw iw ih ≤ ah then
      .ok [PageElement.imagePlacement 0 0 (iw : ℤ) (ih : ℤ)
        (scaledWidth aw iw) (scaledHeight aw iw ih)]
    else if effectivePageHeight ah = 0 then .error .divisionByZero
    else .ok (multiPageElements aw iw ih (planPages aw ah iw ih))
  | .originalSize =>
    .ok [PageElement.imagePlacement 0 0 (iw : ℤ) (ih : ℤ) (iw : ℚ) (ih : ℚ)]

/-- Recogniser for image placements. -/
def isPlacement : PageElement → Bool
  | .imagePlacement _ _ _ _ _ _ => true
  | .pageBreak => false

/-- Recogniser for page breaks. -/
def isBreak : PageElement → Bool
  | .imagePlacement _ _ _ _ _ _ => false
  | .pageBreak => true

/-- Whether the planner returned a plan rather than raising. -/
def isOkPlan : Except PlanErr (List PageElement) → Bool
  | .ok _ => true
  | .error _ => false

/-- Number of image placements produced under the multi-page scaling
method, or `none` when the planner raises. -/
def planSliceCount (aw ah : ℚ) (iw ih : ℕ) : Option ℕ :=
  match planElements aw ah iw ih .scaleToMultiplePages with
  | .ok es => some (es.countP isPlacement)
  | .error _ => none

/-- Number of page breaks produced under the multi-page scaling method, or
`none` when the planner raises. -/
def planBreakCount (aw ah : ℚ) (iw ih : ℕ) : Option ℕ :=
  match planElements aw ah iw ih .scaleToMultiplePages with
  | .ok es => some (es.countP isBreak)
  | .error _ => none

/-! ### Basic facts about the embedded arithmetic -/

lemma pyInt_of_nonneg {q : ℚ} (h : 0 ≤ q) : pyInt q = ⌊q⌋ := if_pos h

lemma pyInt_natCast (n : ℕ) : pyInt (n : ℚ) = (n : ℤ) := by
  rw [pyInt_of_nonneg (by positivity)]
  exact_mod_cast Int.floor_natCast n

lemma shp_nonneg (ih P : ℕ) : 0 ≤ sectionHeightPixels ih P := by
  unfold sectionHeightPixels
  positivity

lemma ov_nonneg (ih P : ℕ) : 0 ≤ overlapPixels ih P := by
  unfold overlapPixels overlapPercentage
  have := shp_nonneg ih P
  nlinarith

lemma ov_le_shp (ih P : ℕ) : overlapPixels ih P ≤ sectionHeightPixels ih P := by
  unfold overlapPixels overlapPercentage
  have := shp_nonneg ih P
  nlinarith

lemma total_shp (ih P : ℕ) (hP : 1 ≤ P) :
    (P : ℚ) * sectionHeightPixels ih P = (ih : ℚ) := by
  have hP0 : (0:ℚ) < (P:ℚ) := by exact_mod_cast Nat.lt_of_lt_of_le Nat.zero_lt_one hP
  rw [sectionHeightPixels, mul_comm, div_mul_cancel₀ _ (ne_of_gt hP0)]

lemma mul_shp_le (ih P : ℕ) (hP : 1 ≤ P) {i : ℕ} (hi : i ≤ P) :
    (i : ℚ) * sectionHeightPixels ih P ≤ (ih : ℚ) := by
  have h1 : (i:ℚ) ≤ (P:ℚ) := by exact_mod_cast hi
  have h2 := shp_nonneg ih P
  calc (i:ℚ) * sectionHeightPixels ih P
      ≤ (P:ℚ) * sectionHeightPixels ih P := by nlinarith
    _ = (ih:ℚ) := total_shp ih P hP

/-! ### Structure of the slice boundaries -/

lemma startY_zero (ih P : ℕ) : startY ih P 0 = 0 := by
  simp [startY, pyInt]

lemma startY_succ (ih P i : ℕ) :
    startY ih P (i + 1) =
      max 0 (⌊((i : ℚ) + 1) * sectionHeightPixels ih P⌋ - ⌊overlapPixels ih P⌋) := by
  unfold startY
  rw [if_pos (Nat.succ_pos i),
    pyInt_of_nonneg (mul_nonneg (by positivity) (shp_nonneg ih P)),
    pyInt_of_nonneg (ov_nonneg ih P)]
  push_cast
  ring_nf

lemma endY_eq_of_lt (ih P : ℕ) (hP : 1 ≤ P) {i : ℕ} (hi : i + 1 < P) :
    endY ih P i =
      min (ih : ℤ) (⌊((i : ℚ) + 1) * sectionHeightPixels ih P⌋ + ⌊overlapPixels ih P⌋) := by
  unfold endY
  have hmin : min (((i : ℚ) + 1) * sectionHeightPixels ih P) (ih : ℚ)
      = ((i : ℚ) + 1) * sectionHeightPixels ih P := by
    apply min_eq_left
    have h := mul_shp_le ih P hP (i := i + 1) (by omega)
    push_cast at h
    linarith
  rw [hmin, if_pos (show i < P - 1 by omega),
    pyInt_of_nonneg (mul_nonneg (by positivity) (shp_nonneg ih P)),
    pyInt_of_nonneg (ov_nonneg ih P)]

lemma endY_last (ih P : ℕ) (hP : 1 ≤ P) : endY ih P (P - 1) = (ih : ℤ) := by
  obtain ⟨Q, rfl⟩ : ∃ Q, P = Q + 1 := ⟨P - 1, by omega⟩
  unfold endY
  simp only [Nat.add_sub_cancel, lt_irrefl, if_false]
  have h2 : ((Q : ℚ) + 1) * sectionHeightPixels ih (Q + 1) = (ih : ℚ) := by
    have h3 := total_shp ih (Q + 1) (by omega)
    push_cast at h3
    linarith
  rw [h2, min_self, pyInt_natCast, add_zero, min_self]

lemma startY_succ_le_endY (ih P : ℕ) (hP : 1 ≤ P) {i : ℕ} (hi : i + 1 < P) :
    startY ih P (i + 1) ≤ endY ih P i := by
  rw [startY_succ, endY_eq_of_lt ih P hP hi]
  have hA0 : (0:ℤ) ≤ ⌊((i : ℚ) + 1) * sectionHeightPixels ih P⌋ :=
    Int.floor_nonneg.mpr (mul_nonneg (by positivity) (shp_nonneg ih P))
  have hB0 : (0:ℤ) ≤ ⌊overlapPixels ih P⌋ := Int.floor_nonneg.mpr (ov_nonneg ih P)
  have hAih : ⌊((i : ℚ) + 1) * sectionHeightPixels ih P⌋ ≤ (ih : ℤ) := by
    have h1 := mul_shp_le ih P hP (i := i + 1) (by omega)
    push_cast at h1
    calc ⌊((i : ℚ) + 1) * sectionHeightPixels ih P⌋
        ≤ ⌊(ih : ℚ)⌋ := Int.floor_le_floor h1
      _ = (ih : ℤ) := by exact_mod_cast Int.floor_natCast ih
  omega

lemma overlap_adjacent (ih P : ℕ) (hP : 1 ≤ P) {i : ℕ} (hi : i + 1 < P) :
    endY ih P i - startY ih P (i + 1) = 2 * pyInt (overlapPixels ih P) := by
  rw [startY_succ, endY_eq_of_lt ih P hP hi, pyInt_of_nonneg (ov_nonneg ih P)]
  have hBA : ⌊overlapPixels ih P⌋ ≤ ⌊((i : ℚ) + 1) * sectionHeightPixels ih P⌋ := by
    apply Int.floor_le_floor
    have h1 := ov_le_shp ih P
    have h2 := shp_nonneg ih P
    nlinarith [show (0:ℚ) ≤ (i : ℚ) from by positivity]
  have hsum : ⌊((i : ℚ) + 1) * sectionHeightPixels ih P⌋ + ⌊overlapPixels ih P⌋ ≤ (ih : ℤ) := by
    have h5 : ((i : ℚ) + 1) ≤ (P : ℚ) - 1 := by
      have h6 : ((i + 2 : ℕ) : ℚ) ≤ ((P : ℕ) : ℚ) := by exact_mod_cast (by omega : i + 2 ≤ P)
      push_cast at h6
      linarith
    have h7 := shp_nonneg ih P
    have h8 := total_shp ih P hP
    have h9 : ((i : ℚ) + 1) * sectionHeightPixels ih P + overlapPixels ih P ≤ (ih : ℚ) := by
      have h10 : overlapPixels ih P = sectionHeightPixels ih P * (1/10) := rfl
      nlinarith
    have hA := Int.floor_le (((i : ℚ) + 1) * sectionHeightPixels ih P)
    have hB := Int.floor_le (overlapPixels ih P)
    have h11 : ((⌊((i : ℚ) + 1) * sectionHeightPixels ih P⌋ + ⌊overlapPixels ih P⌋ : ℤ) : ℚ)
        ≤ (ih : ℚ) := by
      push_cast
      linarith
    exact_mod_cast h11
  rw [min_eq_right hsum, max_eq_right (by omega)]
  omega

lemma floor_ov_lt_floor_shp (ih P : ℕ) (hs : 1 ≤ sectionHeightPixels ih P) :
    ⌊overlapPixels ih P⌋ < ⌊sectionHeightPixels ih P⌋ := by
  have hov : overlapPixels ih P = sectionHeightPixels ih P * (1/10) := rfl
  by_cases h10 : sectionHeightPixels ih P < 10
  · have h1 : ⌊overlapPixels ih P⌋ = 0 := by
      apply Int.floor_eq_zero_iff.mpr
      constructor
      · exact ov_nonneg ih P
      · rw [hov]; linarith
    have h2 : (1:ℤ) ≤ ⌊sectionHeightPixels ih P⌋ := by
      rw [Int.le_floor]; exact_mod_cast hs
    omega
  · push_neg at h10
    have h1 : (⌊overlapPixels ih P⌋ : ℚ) ≤ sectionHeightPixels ih P * (1/10) := by
      rw [← hov]; exact Int.floor_le _
    have h2 : sectionHeightPixels ih P - 1 < (⌊sectionHeightPixels ih P⌋ : ℚ) :=
      Int.sub_one_lt_floor _
    have h3 : (⌊overlapPixels ih P⌋ : ℚ) < (⌊sectionHeightPixels ih P⌋ : ℚ) := by linarith
    exact_mod_cast h3

lemma startY_strict (ih P : ℕ) (hs : 1 ≤ sectionHeightPixels ih P) (i : ℕ) :
    startY ih P i < startY ih P (i + 1) := by
  have hkey := floor_ov_lt_floor_shp ih P hs
  have hs0 := shp_nonneg ih P
  cases i with
  | zero =>
    rw [startY_zero, startY_succ]
    have h0 : (((0:ℕ) : ℚ) + 1) * sectionHeightPixels ih P = sectionHeightPixels ih P := by
      push_cast
      ring
    rw [h0]
    omega
  | succ j =>
    rw [startY_succ, startY_succ]
    have hle : ((j : ℚ) + 1) * sectionHeightPixels ih P + 1
        ≤ (((j + 1 : ℕ) : ℚ) + 1) * sectionHeightPixels ih P := by
      push_cast
      nlinarith
    have hmono : ⌊((j : ℚ) + 1) * sectionHeightPixels ih P⌋ + 1
        ≤ ⌊(((j + 1 : ℕ) : ℚ) + 1) * sectionHeightPixels ih P⌋ := by
      calc ⌊((j : ℚ) + 1) * sectionHeightPixels ih P⌋ + 1
          = ⌊((j : ℚ) + 1) * sectionHeightPixels ih P + 1⌋ := (Int.floor_add_one _).symm
        _ ≤ ⌊(((j + 1 : ℕ) : ℚ) + 1) * sectionHeightPixels ih P⌋ := Int.floor_le_floor hle
    have hpos : 0 < ⌊((j : ℚ) + 1) * sectionHeightPixels ih P⌋ - ⌊overlapPixels ih P⌋ := by
      have hj : ⌊sectionHeightPixels ih P⌋ ≤ ⌊((j : ℚ) + 1) * sectionHeightPixels ih P⌋ := by
        apply Int.floor_le_floor
        nlinarith [show (0:ℚ) ≤ (j : ℚ) from by positivity]
      omega
    omega

lemma coverage_aux (ih P : ℕ) (hP : 1 ≤ P) :
    ∀ k, k < P → ∀ y : ℤ, 0 ≤ y → y < endY ih P k →
      ∃ i, i ≤ k ∧ startY ih P i ≤ y ∧ y < endY ih P i := by
  intro k
  induction k with
  | zero =>
    intro _ y hy0 hy
    exact ⟨0, le_refl 0, by rw [startY_zero]; exact hy0, hy⟩
  | succ j ihj =>
    intro hk y hy0 hy
    by_cases hcase : y < endY ih P j
    · obtain ⟨i, hi, h1, h2⟩ := ihj (by omega) y hy0 hcase
      exact ⟨i, by omega, h1, h2⟩
    · push_neg at hcase
      exact ⟨j + 1, le_refl _, le_trans (startY_succ_le_endY ih P hP hk) hcase, hy⟩

/-! ### Structure of the emitted plan -/

lemma countP_slice_placement (aw : ℚ) (iw ih P i : ℕ) :
    (sliceElements aw iw ih P i).countP isPlacement = 1 := by
  unfold sliceElements
  by_cases h : i < P - 1 <;> simp [h, isPlacement]

lemma countP_pagesLoop_placement (f : ℕ → List PageElement)
    (h : ∀ i, (f i).countP isPlacement = 1) :
    ∀ n, (pagesLoop f n).countP isPlacement = n := by
  intro n
  induction n with
  | zero => rfl
  | succ k ihk => simp [pagesLoop, List.countP_append, ihk, h]

lemma countP_multi_placement (aw : ℚ) (iw ih P : ℕ) :
    (multiPageElements aw iw ih P).countP isPlacement = P :=
  countP_pagesLoop_placement _ (fun i => countP_slice_placement aw iw ih P i) P

lemma effectivePageHeight_pos {ah : ℚ} (hah : 0 < ah) : 0 < effectivePageHeight ah := by
  unfold effectivePageHeight overlapPercentage
  nlinarith

lemma plan_multi_eq (aw ah : ℚ) (iw ih : ℕ) (hiw : iw ≠ 0)
    (hah : effectivePageHeight ah ≠ 0) (hmulti : ah < scaledHeight aw iw ih) :
    planElements aw ah iw ih .scaleToMultiplePages =
      .ok (multiPageElements aw iw ih (planPages aw ah iw ih)) := by
  simp only [planElements]
  rw [if_neg hiw, if_neg (not_le.mpr hmulti), if_neg hah]

lemma planSliceCount_eq (aw ah : ℚ) (iw ih : ℕ) (hiw : iw ≠ 0)
    (hah : effectivePageHeight ah ≠ 0) (hmulti : ah < scaledHeight aw iw ih) :
    planSliceCount aw ah iw ih = some (planPages aw ah iw ih) := by
  simp only [planSliceCount, plan_multi_eq aw ah iw ih hiw hah hmulti,
    countP_multi_placement]

lemma planPages_pos (aw ah : ℚ) (iw ih : ℕ) : 1 ≤ planPages aw ah iw ih := by
  unfold planPages pagesNeeded
  have h := le_max_left (1:ℤ)
    (pyInt (scaledHeight aw iw ih / effectivePageHeight ah + 999 / 1000))
  omega

/-! ### Claim C1: content area handed to the planner -/

/-- C1 counterexample: at A4 portrait with a 10 mm margin the content
height handed to the planner differs from the physical height minus twice
the margin, because an extra 10 mm is deducted for page numbers. -/
theorem c1_counterexample :
    availableHeight PageSizeName.a4 Orientation.portrait 10 ≠
      (pageSizeTuple PageSizeName.a4 Orientation.portrait).2 - 2 * (10 * mmUnit) := by
  norm_num [availableHeight, docHeight, pageSizeTuple, pageSizeOf, mmUnit]

/-- C1 (amended): for every page format, orientation and margin, the
content width handed to the planner equals the physical width minus twice
the margin, while the content height equals the physical height minus
twice the margin minus a further 10 mm reserved for page numbers. -/
theorem c1_content_area (n : PageSizeName) (o : Orientation) (m : ℚ) :
    availableWidth n o m = (pageSizeTuple n o).1 - 2 * (m * mmUnit) ∧
    availableHeight n o m = (pageSizeTuple n o).2 - 2 * (m * mmUnit) - 10 * mmUnit := by
  unfold availableWidth availableHeight docWidth docHeight
  constructor <;> ring

/-! ### Claim C10: crop boundaries are separately truncated and clamped -/

/-- C10: each crop boundary is built from separately truncated nonnegative
terms, so the truncations coincide with floors, and the final clamps keep
the boundaries within the image: the start position is clamped below at 0
and the end position is clamped above at the image height. -/
theorem c10_crop_bounds (ih P i : ℕ) :
    startY ih P i = max 0 (⌊(i : ℚ) * sectionHeightPixels ih P⌋ -
      (if 0 < i then ⌊overlapPixels ih P⌋ else 0)) ∧
    endY ih P i = min (ih : ℤ)
      (⌊min (((i : ℚ) + 1) * sectionHeightPixels ih P) (ih : ℚ)⌋ +
        (if i < P - 1 then ⌊overlapPixels ih P⌋ else 0)) ∧
    0 ≤ startY ih P i ∧ endY ih P i ≤ (ih : ℤ) := by
  have h1 : pyInt ((i : ℚ) * sectionHeightPixels ih P)
      = ⌊(i : ℚ) * sectionHeightPixels ih P⌋ :=
    pyInt_of_nonneg (mul_nonneg (by positivity) (shp_nonneg ih P))
  have h2 : pyInt (overlapPixels ih P) = ⌊overlapPixels ih P⌋ :=
    pyInt_of_nonneg (ov_nonneg ih P)
  have h3 : pyInt (min (((i : ℚ) + 1) * sectionHeightPixels ih P) (ih : ℚ))
      = ⌊min (((i : ℚ) + 1) * sectionHeightPixels ih P) (ih : ℚ)⌋ :=
    pyInt_of_nonneg (le_min (mul_nonneg (by positivity) (shp_nonneg ih P)) (by positivity))
  refine ⟨?_, ?_, le_max_left 0 _, min_le_left _ _⟩
  · unfold startY
    rw [h1, h2]
  · unfold endY
    rw [h3, h2]

/-! ### Claim C3: slices cover the image with no gaps -/

/-- C3: in a multi-page plan the first slice starts at 0, the last slice
ends exactly at the image height, every slice starts no later than the
previous slice ends, and consequently every pixel row of the image lies in
some slice. -/
theorem c3_coverage (aw ah : ℚ) (iw ih : ℕ) (hiw : iw ≠ 0) (hah : 0 < ah)
    (hmulti : ah < scaledHeight aw iw ih) (hP : 2 ≤ planPages aw ah iw ih) :
    startY ih (planPages aw ah iw ih) 0 = 0 ∧
    endY ih (planPages aw ah iw ih) (planPages aw ah iw ih - 1) = (ih : ℤ) ∧
    (∀ i, i + 1 < planPages aw ah iw ih →
      startY ih (planPages aw ah iw ih) (i + 1) ≤ endY ih (planPages aw ah iw ih) i) ∧
    (∀ y : ℤ, 0 ≤ y → y < (ih : ℤ) →
      ∃ i, i < planPages aw ah iw ih ∧
        startY ih (planPages aw ah iw ih) i ≤ y ∧
        y < endY ih (planPages aw ah iw ih) i) := by
  have hP1 : 1 ≤ planPages aw ah iw ih := by omega
  refine ⟨startY_zero ih _, endY_last ih _ hP1,
    fun i hi => startY_succ_le_endY ih _ hP1 hi, ?_⟩
  intro y hy0 hy
  have hy2 : y < endY ih (planPages aw ah iw ih) (planPages aw ah iw ih - 1) := by
    rw [endY_last ih _ hP1]
    exact hy
  obtain ⟨i, hi, hA, hB⟩ :=
    coverage_aux ih (planPages aw ah iw ih) hP1 (planPages aw ah iw ih - 1) (by omega) y hy0 hy2
  exact ⟨i, by omega, hA, hB⟩

/-- C3 witness at content 400 by 600 points and image 400 by 3000 pixels. -/
theorem c3_witness :
    ((400:ℕ) ≠ 0 ∧ (0:ℚ) < 600 ∧ (600:ℚ) < scaledHeight 400 400 3000 ∧
      2 ≤ planPages 400 600 400 3000) ∧
    (startY 3000 (planPages 400 600 400 3000) 0 = 0 ∧
      endY 3000 (planPages 400 600 400 3000) (planPages 400 600 400 3000 - 1)
        = ((3000:ℕ) : ℤ) ∧
      (∀ i, i + 1 < planPages 400 600 400 3000 →
        startY 3000 (planPages 400 600 400 3000) (i + 1)
          ≤ endY 3000 (planPages 400 600 400 3000) i) ∧
      (∀ y : ℤ, 0 ≤ y → y < ((3000:ℕ) : ℤ) →
        ∃ i, i < planPages 400 600 400 3000 ∧
          startY 3000 (planPages 400 600 400 3000) i ≤ y ∧
          y < endY 3000 (planPages 400 600 400 3000) i)) :=
  ⟨⟨by norm_num, by norm_num, by norm_num [scaledHeight, scaleFactor],
      by norm_num [planPages, pagesNeeded, pyInt, scaledHeight, scaleFactor,
        effectivePageHeight, overlapPercentage]⟩,
    c3_coverage 400 600 400 3000 (by norm_num) (by norm_num)
      (by norm_num [scaledHeight, scaleFactor])
      (by norm_num [planPages, pagesNeeded, pyInt, scaledHeight, scaleFactor,
        effectivePageHeight, overlapPercentage])⟩

/-! ### Claim C4: overlap between adjacent slices -/

/-- C4 counterexample: with content 400 by 600 points and image 400 by
3000 pixels the plan has 6 pages, the nominal slice height is 500 px and
one tenth of it is 50 px, yet the vertical overlap between the first two
slices is 100 px, twice the claimed amount. -/
theorem c4_counterexample :
    (600:ℚ) < scaledHeight 400 400 3000 ∧
    planPages 400 600 400 3000 = 6 ∧
    sectionHeightPixels 3000 6 * (1/10) = 50 ∧
    endY 3000 6 0 - startY 3000 6 1 = 100 := by
  refine ⟨by norm_num [scaledHeight, scaleFactor], ?_, by norm_num [sectionHeightPixels], ?_⟩
  · norm_num [planPages, pagesNeeded, pyInt, scaledHeight, scaleFactor,
      effectivePageHeight, overlapPercentage]
    decide
  · norm_num [endY, startY, pyInt, sectionHeightPixels, overlapPixels, overlapPercentage]

/-- C4 (amended): in a multi-page plan every pair of adjacent slices
overlaps vertically by exactly twice the truncated overlap term
int(nominal_slice_height_px times 0.10) — the upper slice extends down by
one truncated overlap and the lower slice extends up by another — the
boundary clamps never shorten an adjacent-pair overlap, the first slice has
no leading overlap and the last slice ends exactly at the image height. -/
theorem c4_overlap (aw ah : ℚ) (iw ih : ℕ) (hiw : iw ≠ 0) (hah : 0 < ah)
    (hmulti : ah < scaledHeight aw iw ih) (hP : 2 ≤ planPages aw ah iw ih) :
    (∀ i, i + 1 < planPages aw ah iw ih →
      endY ih (planPages aw ah iw ih) i - startY ih (planPages aw ah iw ih) (i + 1)
        = 2 * pyInt (overlapPixels ih (planPages aw ah iw ih))) ∧
    startY ih (planPages aw ah iw ih) 0 = 0 ∧
    endY ih (planPages aw ah iw ih) (planPages aw ah iw ih - 1) = (ih : ℤ) := by
  have hP1 : 1 ≤ planPages aw ah iw ih := by omega
  exact ⟨fun i hi => overlap_adjacent ih _ hP1 hi, startY_zero ih _, endY_last ih _ hP1⟩

/-- C4 witness at content 400 by 600 points and image 400 by 3000 pixels. -/
theorem c4_witness :
    ((400:ℕ) ≠ 0 ∧ (0:ℚ) < 600 ∧ (600:ℚ) < scaledHeight 400 400 3000 ∧
      2 ≤ planPages 400 600 400 3000) ∧
    ((∀ i, i + 1 < planPages 400 600 400 3000 →
      endY 3000 (planPages 400 600 400 3000) i
          - startY 3000 (planPages 400 600 400 3000) (i + 1)
        = 2 * pyInt (overlapPixels 3000 (planPages 400 600 400 3000))) ∧
    startY 3000 (planPages 400 600 400 3000) 0 = 0 ∧
    endY 3000 (planPages 400 600 400 3000) (planPages 400 600 400 3000 - 1)
      = ((3000:ℕ) : ℤ)) :=
  ⟨⟨by norm_num, by norm_num, by norm_num [scaledHeight, scaleFactor],
      by norm_num [planPages, pagesNeeded, pyInt, scaledHeight, scaleFactor,
        effectivePageHeight, overlapPercentage]⟩,
    c4_overlap 400 600 400 3000 (by norm_num) (by norm_num)
      (by norm_num [scaledHeight, scaleFactor])
      (by norm_num [planPages, pagesNeeded, pyInt, scaledHeight, scaleFactor,
        effectivePageHeight, overlapPercentage])⟩

/-! ### Claim C5: strict monotonicity of slice starts -/

/-- C5 counterexample: with a 1 by 1 point content area and a 1 by 5 pixel
image the multi-page branch is taken with 6 pages, and the first two slices
both start at 0, so the start coordinates are not strictly increasing. -/
theorem c5_counterexample :
    (1:ℚ) < scaledHeight 1 1 5 ∧
    planPages 1 1 1 5 = 6 ∧
    startY 5 (planPages 1 1 1 5) 0 = 0 ∧
    startY 5 (planPages 1 1 1 5) 1 = 0 := by
  have hp : planPages 1 1 1 5 = 6 := by
    norm_num [planPages, pagesNeeded, pyInt, scaledHeight, scaleFactor,
      effectivePageHeight, overlapPercentage]
    decide
  refine ⟨by norm_num [scaledHeight, scaleFactor], hp, ?_, ?_⟩
  · rw [hp]
    exact startY_zero 5 6
  · rw [hp]
    norm_num [startY, pyInt, sectionHeightPixels, overlapPixels, overlapPercentage]

/-- C5 (amended): in a multi-page plan whose page count does not exceed
the image pixel height (equivalently, nominal slice height at least one
pixel), the clamped slice start coordinates are strictly increasing in
emission order. -/
theorem c5_monotone (aw ah : ℚ) (iw ih : ℕ) (hiw : iw ≠ 0) (hah : 0 < ah)
    (hmulti : ah < scaledHeight aw iw ih) (hle : planPages aw ah iw ih ≤ ih) :
    ∀ i, i + 1 < planPages aw ah iw ih →
      startY ih (planPages aw ah iw ih) i < startY ih (planPages aw ah iw ih) (i + 1) := by
  have hP1 : 1 ≤ planPages aw ah iw ih := planPages_pos aw ah iw ih
  have hs : 1 ≤ sectionHeightPixels ih (planPages aw ah iw ih) := by
    unfold sectionHeightPixels
    rw [le_div_iff₀ (Nat.cast_pos.mpr hP1), one_mul]
    exact_mod_cast hle
  exact fun i _ => startY_strict ih _ hs i

/-- C5 witness at content 400 by 600 points and image 400 by 3000 pixels. -/
theorem c5_witness :
    ((400:ℕ) ≠ 0 ∧ (0:ℚ) < 600 ∧ (600:ℚ) < scaledHeight 400 400 3000 ∧
      planPages 400 600 400 3000 ≤ 3000) ∧
    (∀ i, i + 1 < planPages 400 600 400 3000 →
      startY 3000 (planPages 400 600 400 3000) i
        < startY 3000 (planPages 400 600 400 3000) (i + 1)) :=
  ⟨⟨by norm_num, by norm_num, by norm_num [scaledHeight, scaleFactor],
      by norm_num [planPages, pagesNeeded, pyInt, scaledHeight, scaleFactor,
        effectivePageHeight, overlapPercentage]⟩,
    c5_monotone 400 600 400 3000 (by norm_num) (by norm_num)
      (by norm_num [scaledHeight, scaleFactor])
      (by norm_num [planPages, pagesNeeded, pyInt, scaledHeight, scaleFactor,
        effectivePageHeight, overlapPercentage])⟩

/-! ### Claim C2: number of slices in the multi-page branch -/

/-- C2 counterexample: with a 100 by 2000 point content area and a 100 by
9001 pixel image, the multi-page branch is taken and the true ceiling of
scaled height over nine tenths of the content height is 6, yet only 5
slices are produced, because the source computes
max(1, int(ratio + 0.999)), which stays below the ceiling when the
fractional part of the ratio is positive but at most 0.001. -/
theorem c2_counterexample :
    (2000:ℚ) < scaledHeight 100 100 9001 ∧
    planSliceCount 100 2000 100 9001 = some 5 ∧
    ⌈scaledHeight 100 100 9001 / effectivePageHeight 2000⌉ = 6 := by
  refine ⟨by norm_num [scaledHeight, scaleFactor], ?_, ?_⟩
  · rw [planSliceCount_eq 100 2000 100 9001 (by norm_num)
      (by norm_num [effectivePageHeight, overlapPercentage])
      (by norm_num [scaledHeight, scaleFactor])]
    norm_num [planPages, pagesNeeded, pyInt, scaledHeight, scaleFactor,
      effectivePageHeight, overlapPercentage]
    decide
  · rw [show scaledHeight 100 100 9001 / effectivePageHeight 2000 = 9001 / 1800 by
      norm_num [scaledHeight, scaleFactor, effectivePageHeight, overlapPercentage]]
    rw [Int.ceil_eq_iff]
    norm_num

/-- C2 (amended): under ScaleToMultiplePages with scaled height exceeding
the content height, the number of slices produced equals
max(1, int(scaled_height / (content_height times 0.9) + 0.999)) and is
always at least 1; it equals the true ceiling of the ratio whenever the
fractional part of the ratio is zero or at least 0.001, and falls exactly
one short of the ceiling when the fractional part is positive and strictly
below 0.001. -/
theorem c2_slice_count (aw ah : ℚ) (iw ih : ℕ) (hiw : iw ≠ 0) (hah : 0 < ah)
    (hmulti : ah < scaledHeight aw iw ih) :
    planSliceCount aw ah iw ih = some (planPages aw ah iw ih) ∧
    1 ≤ planPages aw ah iw ih ∧
    ((scaledHeight aw iw ih / effectivePageHeight ah
          - ⌊scaledHeight aw iw ih / effectivePageHeight ah⌋ = 0 ∨
      1 / 1000 ≤ scaledHeight aw iw ih / effectivePageHeight ah
          - ⌊scaledHeight aw iw ih / effectivePageHeight ah⌋) →
      (planPages aw ah iw ih : ℤ)
        = ⌈scaledHeight aw iw ih / effectivePageHeight ah⌉) ∧
    (0 < scaledHeight aw iw ih / effectivePageHeight ah
          - ⌊scaledHeight aw iw ih / effectivePageHeight ah⌋ →
      scaledHeight aw iw ih / effectivePageHeight ah
          - ⌊scaledHeight aw iw ih / effectivePageHeight ah⌋ < 1 / 1000 →
      (planPages aw ah iw ih : ℤ)
        = ⌈scaledHeight aw iw ih / effectivePageHeight ah⌉ - 1) := by
  have heff := effectivePageHeight_pos hah
  set r := scaledHeight aw iw ih / effectivePageHeight ah with hr
  have hrfl : (⌊r⌋ : ℚ) ≤ r := Int.floor_le r
  have hru : r < ⌊r⌋ + 1 := Int.lt_floor_add_one r
  have hr1 : 1 < r := by
    rw [hr]
    apply (one_lt_div heff).mpr
    have h0 : effectivePageHeight ah = ah * (1 - 1/10) := rfl
    nlinarith
  have hfl1 : (1:ℤ) ≤ ⌊r⌋ := by
    rw [Int.le_floor]
    push_cast
    linarith
  refine ⟨planSliceCount_eq aw ah iw ih hiw (ne_of_gt heff) hmulti,
    planPages_pos aw ah iw ih, ?_, ?_⟩
  · rintro (hfrac0 | hfrac)
    · have hreq : r = (⌊r⌋ : ℚ) := by linarith
      have hfloor : ⌊r + 999 / 1000⌋ = ⌊r⌋ := by
        rw [Int.floor_eq_iff]
        constructor
        · push_cast
          linarith
        · push_cast
          linarith
      have hceil : ⌈r⌉ = ⌊r⌋ := by
        apply Int.ceil_eq_iff.mpr
        constructor
        · push_cast
          linarith
        · push_cast
          linarith
      have hpy : pyInt (r + 999 / 1000) = ⌊r⌋ := by
        rw [pyInt_of_nonneg (by linarith), hfloor]
      unfold planPages pagesNeeded
      rw [← hr, hpy, max_eq_right hfl1, hceil]
      omega
    · have hfloor : ⌊r + 999 / 1000⌋ = ⌊r⌋ + 1 := by
        rw [Int.floor_eq_iff]
        constructor
        · push_cast
          linarith
        · push_cast
          linarith
      have hceil : ⌈r⌉ = ⌊r⌋ + 1 := by
        apply Int.ceil_eq_iff.mpr
        constructor
        · push_cast
          linarith
        · push_cast
          linarith
      have hpy : pyInt (r + 999 / 1000) = ⌊r⌋ + 1 := by
        rw [pyInt_of_nonneg (by linarith), hfloor]
      unfold planPages pagesNeeded
      rw [← hr, hpy, max_eq_right (by omega), hceil]
      omega
  · intro hfracpos hfraclt
    have hfloor : ⌊r + 999 / 1000⌋ = ⌊r⌋ := by
      rw [Int.floor_eq_iff]
      constructor
      · push_cast
        linarith
      · push_cast
        linarith
    have hceil : ⌈r⌉ = ⌊r⌋ + 1 := by
      apply Int.ceil_eq_iff.mpr
      constructor
      · push_cast
        linarith
      · push_cast
        linarith
    have hpy : pyInt (r + 999 / 1000) = ⌊r⌋ := by
      rw [pyInt_of_nonneg (by linarith), hfloor]
    unfold planPages pagesNeeded
    rw [← hr, hpy, max_eq_right hfl1, hceil]
    omega

/-- C2 witness at content 400 by 600 points and image 400 by 3000 pixels. -/
theorem c2_witness :
    ((400:ℕ) ≠ 0 ∧ (0:ℚ) < 600 ∧ (600:ℚ) < scaledHeight 400 400 3000) ∧
    (planSliceCount 400 600 400 3000 = some (planPages 400 600 400 3000) ∧
      1 ≤ planPages 400 600 400 3000 ∧
      ((scaledHeight 400 400 3000 / effectivePageHeight 600
            - ⌊scaledHeight 400 400 3000 / effectivePageHeight 600⌋ = 0 ∨
        1 / 1000 ≤ scaledHeight 400 400 3000 / effectivePageHeight 600
            - ⌊scaledHeight 400 400 3000 / effectivePageHeight 600⌋) →
        (planPages 400 600 400 3000 : ℤ)
          = ⌈scaledHeight 400 400 3000 / effectivePageHeight 600⌉) ∧
      (0 < scaledHeight 400 400 3000 / effectivePageHeight 600
            - ⌊scaledHeight 400 400 3000 / effectivePageHeight 600⌋ →
        scaledHeight 400 400 3000 / effectivePageHeight 600
            - ⌊scaledHeight 400 400 3000 / effectivePageHeight 600⌋ < 1 / 1000 →
        (planPages 400 600 400 3000 : ℤ)
          = ⌈scaledHeight 400 400 3000 / effectivePageHeight 600⌉ - 1)) :=
  ⟨⟨by norm_num, by norm_num, by norm_num [scaledHeight, scaleFactor]⟩,
    c2_slice_count 400 600 400 3000 (by norm_num) (by norm_num)
      (by norm_num [scaledHeight, scaleFactor])⟩

/-! ### Claim C6: single-page short circuit of the multi-page method -/

/-- C6: when the horizontally scaled height fits the content height, the
multi-page method emits a single placement of the whole image at the
horizontal scale min(1, content_width / image_width), with one image
placement and zero page breaks; the multi-page machinery is bypassed. -/
theorem c6_single_page (aw ah : ℚ) (iw ih : ℕ) (hiw : iw ≠ 0)
    (hfit : scaledHeight aw iw ih ≤ ah) :
    planElements aw ah iw ih .scaleToMultiplePages =
      .ok [PageElement.imagePlacement 0 0 (iw : ℤ) (ih : ℤ)
        ((iw : ℚ) * min 1 (aw / (iw : ℚ))) ((ih : ℚ) * min 1 (aw / (iw : ℚ)))] ∧
    planSliceCount aw ah iw ih = some 1 ∧
    planBreakCount aw ah iw ih = some 0 := by
  have h1 : planElements aw ah iw ih .scaleToMultiplePages =
      .ok [PageElement.imagePlacement 0 0 (iw : ℤ) (ih : ℤ)
        ((iw : ℚ) * min 1 (aw / (iw : ℚ))) ((ih : ℚ) * min 1 (aw / (iw : ℚ)))] := by
    simp only [planElements]
    rw [if_neg hiw, if_pos hfit]
    rfl
  refine ⟨h1, ?_, ?_⟩
  · simp only [planSliceCount, h1]
    rfl
  · simp only [planBreakCount, h1]
    rfl

/-- C6 witness at content 400 by 600 points and image 400 by 300 pixels. -/
theorem c6_witness :
    ((400:ℕ) ≠ 0 ∧ scaledHeight 400 400 300 ≤ 600) ∧
    (planElements 400 600 400 300 .scaleToMultiplePages =
      .ok [PageElement.imagePlacement 0 0 ((400:ℕ) : ℤ) ((300:ℕ) : ℤ)
        (((400:ℕ) : ℚ) * min 1 (400 / ((400:ℕ) : ℚ)))
        (((300:ℕ) : ℚ) * min 1 (400 / ((400:ℕ) : ℚ)))] ∧
    planSliceCount 400 600 400 300 = some 1 ∧
    planBreakCount 400 600 400 300 = some 0) :=
  ⟨⟨by norm_num, by norm_num [scaledHeight, scaleFactor]⟩,
    c6_single_page 400 600 400 300 (by norm_num) (by norm_num [scaledHeight, scaleFactor])⟩

/-! ### Claim C7: fit-to-page scaling -/

/-- C7: under FitToPage with positive dimensions the plan is a single
placement of the whole image at the uniform scale
min(content_width / image_width, content_height / image_height), applied
without any clamp at 1, and the rendered aspect ratio equals the image
aspect ratio; the singleton plan contains no page break. -/
theorem c7_fit_to_page (aw ah : ℚ) (iw ih : ℕ) (haw : 0 < aw) (hah : 0 < ah)
    (hiw : 0 < iw) (hih : 0 < ih) :
    planElements aw ah iw ih .fitToPage =
      .ok [PageElement.imagePlacement 0 0 (iw : ℤ) (ih : ℤ)
        ((iw : ℚ) * min (aw / (iw : ℚ)) (ah / (ih : ℚ)))
        ((ih : ℚ) * min (aw / (iw : ℚ)) (ah / (ih : ℚ)))] ∧
    ((iw : ℚ) * min (aw / (iw : ℚ)) (ah / (ih : ℚ))) /
        ((ih : ℚ) * min (aw / (iw : ℚ)) (ah / (ih : ℚ))) = (iw : ℚ) / (ih : ℚ) ∧
    [PageElement.imagePlacement 0 0 (iw : ℤ) (ih : ℤ)
        ((iw : ℚ) * min (aw / (iw : ℚ)) (ah / (ih : ℚ)))
        ((ih : ℚ) * min (aw / (iw : ℚ)) (ah / (ih : ℚ)))].countP isBreak = 0 := by
  have hiw0 : (0:ℚ) < (iw : ℚ) := Nat.cast_pos.mpr hiw
  have hih0 : (0:ℚ) < (ih : ℚ) := Nat.cast_pos.mpr hih
  have hs : (0:ℚ) < min (aw / (iw : ℚ)) (ah / (ih : ℚ)) :=
    lt_min (div_pos haw hiw0) (div_pos hah hih0)
  refine ⟨?_, ?_, rfl⟩
  · simp only [planElements]
    rw [if_neg (Nat.pos_iff_ne_zero.mp hiw), if_neg (Nat.pos_iff_ne_zero.mp hih)]
  · rw [mul_div_mul_right _ _ (ne_of_gt hs)]

/-- C7 witness at content 400 by 600 points and a small 100 by 100 pixel
image, which is enlarged by the unclamped scale 4. -/
theorem c7_witness :
    ((0:ℚ) < 400 ∧ (0:ℚ) < 600 ∧ (0:ℕ) < 100) ∧
    (planElements 400 600 100 100 .fitToPage =
      .ok [PageElement.imagePlacement 0 0 ((100:ℕ) : ℤ) ((100:ℕ) : ℤ)
        (((100:ℕ) : ℚ) * min (400 / ((100:ℕ) : ℚ)) (600 / ((100:ℕ) : ℚ)))
        (((100:ℕ) : ℚ) * min (400 / ((100:ℕ) : ℚ)) (600 / ((100:ℕ) : ℚ)))] ∧
    (((100:ℕ) : ℚ) * min (400 / ((100:ℕ) : ℚ)) (600 / ((100:ℕ) : ℚ))) /
        (((100:ℕ) : ℚ) * min (400 / ((100:ℕ) : ℚ)) (600 / ((100:ℕ) : ℚ)))
      = ((100:ℕ) : ℚ) / ((100:ℕ) : ℚ) ∧
    [PageElement.imagePlacement 0 0 ((100:ℕ) : ℤ) ((100:ℕ) : ℤ)
        (((100:ℕ) : ℚ) * min (400 / ((100:ℕ) : ℚ)) (600 / ((100:ℕ) : ℚ)))
        (((100:ℕ) : ℚ) * min (400 / ((100:ℕ) : ℚ)) (600 / ((100:ℕ) : ℚ)))].countP isBreak
      = 0) :=
  ⟨⟨by norm_num, by norm_num, by norm_num⟩,
    c7_fit_to_page 400 600 100 100 (by norm_num) (by norm_num) (by norm_num) (by norm_num)⟩

/-! ### Claim C8: no margin validation before pagination -/

/-- C8: the code performs no margin validation and raises no typed
configuration error.  At A4 portrait with a 200 mm margin the content
width handed to the planner is negative, yet the planner still produces a
plan instead of failing before pagination. -/
theorem c8_no_margin_validation :
    availableWidth PageSizeName.a4 Orientation.portrait 200 < 0 ∧
    availableHeight PageSizeName.a4 Orientation.portrait 200 < 0 ∧
    isOkPlan (planElements (availableWidth PageSizeName.a4 Orientation.portrait 200)
      (availableHeight PageSizeName.a4 Orientation.portrait 200) 100 100 .fitToPage)
      = true := by
  refine ⟨?_, ?_, ?_⟩
  · norm_num [availableWidth, docWidth, pageSizeTuple, pageSizeOf, mmUnit]
  · norm_num [availableHeight, docHeight, pageSizeTuple, pageSizeOf, mmUnit]
  · simp only [planElements]
    norm_num [isOkPlan]

/-! ### Claim C9: no typed invalid-input error for zero-area images -/

/-- C9: the planner raises no typed invalid-input error.  With a
zero-height image the multi-page method silently scales the zero-area
image and produces a single zero-height placement, and with a zero-width
image it raises a bare ZeroDivisionError, which the catch-all converts to
a generic failure message. -/
theorem c9_no_typed_error :
    planElements 400 600 400 0 .scaleToMultiplePages =
      .ok [PageElement.imagePlacement 0 0 ((400:ℕ) : ℤ) ((0:ℕ) : ℤ) 400 0] ∧
    planElements 400 600 0 300 .scaleToMultiplePages = .error .divisionByZero := by
  constructor
  · simp only [planElements]
    norm_num [scaledHeight, scaledWidth, scaleFactor]
  · simp only [planElements]
    norm_num

end FlowchartPDF
